import Mathlib

/-!
Verification of the balance-accumulation pipeline in
`apply_historical_to_monthly.py` (with the opening-balance snapshot produced
by `import_opening_balance.py`).

Shallow embedding notes:
  * SQL tables are lists of row structures; the uniquely keyed output table
    `monthly_balance` is a map from the unique key (account, month_key) to the
    stored row, matching the uniqueness constraint the upsert relies on.
  * Monetary amounts are `Int` (the source computes in Python floats; the
    properties verified here concern which amounts are combined, not
    floating-point rounding). SQL NULL amounts are `Option Int`, and
    `COALESCE(x, 0)` / `SUM` ignoring NULL are `Option.getD 0`.
  * Python string comparison (such as a month key against the cutoff `2025-07`) is lexicographic over
    code points; embedded as `strLe` on the character lists.
  * `int` applied to the dash-split pieces of the month key is embedded character-by-character
    (`yearOf` / `monthOf`), since the claims evaluate it only on `YYYY-MM`
    keys.
  * pandas `.str.contains(kw)` for the literal keywords used here is plain
    substring containment (`strContains`); `.astype(str).str.lower()` maps a
    SQL NULL to the string "none" (lower-cased "None"), which matches no
    keyword.
-/

/-- Lexicographic (code-point) order on character lists: Python string `<=`. -/
def charListLe : List Char → List Char → Bool
  | [], _ => true
  | _ :: _, [] => false
  | a :: as, b :: bs =>
      (a.toNat < b.toNat : Bool) || ((a.toNat == b.toNat) && charListLe as bs)

/-- Python string comparison `a <= b` (lexicographic over code points). -/
def strLe (a b : String) : Bool := charListLe a.data b.data

/-- Whether `n` is a prefix of `h` (character lists). -/
def charListPref : List Char → List Char → Bool
  | [], _ => true
  | _ :: _, [] => false
  | a :: n, b :: h => (a == b) && charListPref n h

/-- Whether `n` occurs as a contiguous substring of `h` (character lists). -/
def charListSub (n : List Char) : List Char → Bool
  | [] => n.isEmpty
  | b :: t => charListPref n (b :: t) || charListSub n t

/-- Substring test: pandas `hay.str.contains(needle)` for a literal needle. -/
def strContains (hay needle : String) : Bool := charListSub needle.data hay.data

/-- Lower-casing a string character-wise: pandas `.str.lower()`. -/
def lowerStr (s : String) : String := ⟨s.data.map Char.toLower⟩

/-- Decimal digits to a natural number: Python `int` on a digit string. -/
def digitsToNat (l : List Char) : Nat :=
  l.foldl (fun n c => n * 10 + (c.toNat - (('0').toNat))) 0

/-- Embeds the Python `int` of piece 0 of the dash-split month key (`YYYY-MM`). -/
def yearOf (mk : String) : Nat :=
  digitsToNat (mk.data.takeWhile (fun c => c ≠ ('-')))

/-- Embeds the Python `int` of piece 1 of the dash-split month key (`YYYY-MM`). -/
def monthOf (mk : String) : Nat :=
  digitsToNat (((mk.data.dropWhile (fun c => c ≠ ('-'))).drop 1).takeWhile
    (fun c => c ≠ ('-')))

/-- The hard-coded reporting window `MONTHS` of `apply_historical_to_monthly.py`. -/
def MONTHS : List String :=
  [("2025-01"), ("2025-02"), ("2025-03"), ("2025-04"), ("2025-05"),
   ("2025-06"), ("2025-07"), ("2025-08"), ("2025-09")]

/-- The marker-voucher exclusion set (BRTFWD, ROLCLR, OBTFER). -/
def MARKERS : List String := [("BRTFWD"), ("ROLCLR"), ("OBTFER")]

/-- A row of the `opening_balance` table (as read on line 53 of the script). -/
structure OBRow where
  account : String
  opening_balance : Option Int
  account_type : Option String
  description : Option String
deriving DecidableEq

/-- A row of the `historical_variance` table. -/
structure HistRow where
  account : String
  month_key : String
  smoothened_amount : Option Int
  journal_amount : Option Int
deriving DecidableEq

/-- A row of a transaction table (`vouchers` or `vouchers_curr_month`); the
year/month of `transaction_date` are kept directly since the queries only
ever compare `YEAR(transaction_date)` and `MONTH(transaction_date)`. -/
structure Txn where
  account_code : String
  year : Nat
  month : Nat
  amount_original : Option Int
  voucher : String
deriving DecidableEq

/-- The stored part of a `monthly_balance` row (the computed balance is stored
in the reused column `opening_balance`). -/
structure MBStored where
  opening_balance : Int
  description : Option String
  account_type : Option String
deriving DecidableEq

/-- The `monthly_balance` table, as a map on its unique key (account, month_key). -/
abbrev MBMap : Type := String × String → Option MBStored

/-- The database state visible to one run of the script. -/
@[ext]
structure DB where
  opening_balance : List OBRow
  historical_variance : List HistRow
  vouchers : List Txn
  vouchers_curr_month : List Txn
  monthly_balance : MBMap

/-- Normalized account type: `ob_df_all[account_type].astype(str).str.lower()`
(line 57); a SQL NULL prints as "None" and lower-cases to "none". -/
def acctTypeNorm (r : OBRow) : String :=
  lowerStr (match r.account_type with | some s => s | none => ("None"))

/-- Line 58: `mask_cum = contains(asset) OR contains(liab)`. -/
def mask_cum (r : OBRow) : Bool :=
  strContains (acctTypeNorm r) ("asset") || strContains (acctTypeNorm r) ("liab")

/-- Line 59: `mask_noncum = contains(income) OR contains(expens)`. -/
def mask_noncum (r : OBRow) : Bool :=
  strContains (acctTypeNorm r) ("income") || strContains (acctTypeNorm r) ("expens")

/-- Line 64: `accounts_cum = cum_df[account].astype(str).tolist()`. -/
def accounts_cum (db : DB) : List String :=
  (db.opening_balance.filter mask_cum).map (fun r => r.account)

/-- Line 65: `accounts_noncum = noncum_df[account].astype(str).tolist()`. -/
def accounts_noncum (db : DB) : List String :=
  (db.opening_balance.filter mask_noncum).map (fun r => r.account)

/-- The last `opening_balance` row for an account: `dict(zip(...))` keeps the
last occurrence when accounts repeat. -/
def lastOBRow (db : DB) (a : String) : Option OBRow :=
  (db.opening_balance.filter (fun r => r.account == a)).getLast?

/-- Line 168 + line 210/229: `float(ob_map.get(acct, 0) or 0)` with `fillna(0)`. -/
def ob_map (db : DB) (a : String) : Int :=
  match lastOBRow db a with
  | some r => r.opening_balance.getD 0
  | none => 0

/-- Line 169: `ob_desc_map.get(acct)` (default None). -/
def ob_desc_map (db : DB) (a : String) : Option String :=
  match lastOBRow db a with
  | some r => r.description
  | none => none

/-- Line 170: `ob_type_map.get(acct)` (default None). -/
def ob_type_map (db : DB) (a : String) : Option String :=
  match lastOBRow db a with
  | some r => r.account_type
  | none => none

/-- Lines 110-113 and 190-193: `vouchers` is queried for month keys up to
`2025-07`, `vouchers_curr_month` from `2025-08` onwards. -/
def tableFor (db : DB) (mk : String) : List Txn :=
  if strLe mk ("2025-07") then db.vouchers else db.vouchers_curr_month

/-- The transactions selected by the WHERE clause shared by the voucher
queries (lines 115-123 and 195-202): account match, calendar year/month of
the key, and voucher tag not in the marker set. -/
def month_txns (db : DB) (mk : String) (acct : String) : List Txn :=
  (tableFor db mk).filter (fun t =>
    (t.account_code == acct) && (t.year == yearOf mk) && (t.month == monthOf mk)
      && !(MARKERS.contains t.voucher))

/-- `COALESCE(SUM(amount_original), 0)`: NULL amounts are ignored by SUM and
an empty set sums to 0. -/
def txnSum (l : List Txn) : Int :=
  l.foldl (fun s t => s + t.amount_original.getD 0) 0

/-- The per-account per-month query `voucher_sum_q` of the cumulative loop
(lines 195-204), as the value `float(result[0] or 0)` it contributes. -/
def voucher_sum (db : DB) (acct : String) (mk : String) : Int :=
  txnSum (month_txns db mk acct)

/-- `fetch_voucher_amounts_for_month` (lines 102-128): the returned dict has a
row per account of the requested list that has at least one transaction
surviving the filter (SQL GROUP BY); other accounts are absent (`none`). -/
def fetch_voucher_amounts_for_month (db : DB) (mk : String) (accts : List String)
    (a : String) : Option Int :=
  if accts.contains a && !(month_txns db mk a).isEmpty
  then some (txnSum (month_txns db mk a))
  else none

/-- The last `historical_variance` row for a (month_key, account) pair:
`dict(zip(...))` keeps the last occurrence. -/
def lastHistRow (db : DB) (mk : String) (a : String) : Option HistRow :=
  (db.historical_variance.filter
    (fun r => (r.account == a) && (r.month_key == mk))).getLast?

/-- `fetch_historical_for_month` (lines 74-99), success path: for month keys
up to `2025-07` it returns COALESCE of the smoothened_amount when
`use_smoothened` and COALESCE of the journal_amount otherwise; for `2025-08` it
sums `amount_original` over `vouchers_curr_month` for the month (no marker
exclusion in that query); for any later month it returns the empty dict.
The pipeline's processing loops never call this function. -/
def fetch_historical_for_month (db : DB) (mk : String) (accts : List String)
    (use_smoothened : Bool) (a : String) : Option Int :=
  if use_smoothened && strLe mk ("2025-07") then
    (lastHistRow db mk a).bind (fun r =>
      if accts.contains a then some (r.smoothened_amount.getD 0) else none)
  else if !use_smoothened && strLe mk ("2025-07") then
    (lastHistRow db mk a).bind (fun r =>
      if accts.contains a then some (r.journal_amount.getD 0) else none)
  else if mk == ("2025-08") then
    (let l := db.vouchers_curr_month.filter (fun t =>
        (t.account_code == a) && (t.year == 2025) && (t.month == 8))
     if accts.contains a && !l.isEmpty then some (txnSum l) else none)
  else none

/-- A row handed to `upsert_monthly_rows` (built on lines 213-214 / 232-233). -/
structure NewRow where
  account : String
  month_key : String
  balance : Int
  description : Option String
  account_type : Option String
deriving DecidableEq

/-- The unique key of an upsert row. -/
def rkey (r : NewRow) : String × String := (r.account, r.month_key)

/-- Boolean key test used to model the `ON DUPLICATE KEY` match. -/
def rkeyEq (r : NewRow) (k : String × String) : Bool :=
  (r.account == k.1) && (r.month_key == k.2)

/-- The metadata column update
`IFNULL(NULLIF(stored, ''), VALUES(incoming))` (lines 154-155): keep the
stored value unless it is NULL or the empty string, in which case take the
incoming one. On plain insert the column is simply the incoming value, which
coincides with this formula at `stored = none`. -/
def metaUpd (stored incoming : Option String) : Option String :=
  match stored with
  | none => incoming
  | some s => if s = ("") then incoming else some s

/-- The description column of a possibly-absent stored row. -/
def descOf : Option MBStored → Option String
  | some m => m.description
  | none => none

/-- The account_type column of a possibly-absent stored row. -/
def typeOf : Option MBStored → Option String
  | some m => m.account_type
  | none => none

/-- Effect of one upsert row on the stored value at its own key
(lines 150-156): insert when absent (an absent column behaves as NULL, so the
same formula covers the plain insert); else overwrite the balance and apply
`metaUpd` to both metadata columns. -/
def applyAt (v : Option MBStored) (r : NewRow) : MBStored :=
  { opening_balance := r.balance,
    description := metaUpd (descOf v) r.description,
    account_type := metaUpd (typeOf v) r.account_type }

/-- One row of `INSERT ... ON DUPLICATE KEY UPDATE` applied to the table map. -/
def applyUpsert (st : MBMap) (r : NewRow) : MBMap :=
  fun k => if rkeyEq r k then some (applyAt (st k) r) else st k

/-- A whole batch executed by `conn.execute(text(insert_sql), rows)`:
rows are applied in order. -/
def applyRows (st : MBMap) (rows : List NewRow) : MBMap :=
  rows.foldl applyUpsert st

/-- One row of the cumulative loop's batch (lines 209-214): the balance is
the opening balance plus the sum of the per-month voucher sums over
`months_to_sum = MONTHS[:i+1]`. -/
def cumRow (db : DB) (months_to_sum : List String) (month_key acct : String) :
    NewRow :=
  { account := acct, month_key := month_key,
    balance := ob_map db acct + (months_to_sum.map (voucher_sum db acct)).sum,
    description := ob_desc_map db acct, account_type := ob_type_map db acct }

/-- The batch built by the cumulative loop for one month (lines 208-214):
one row per cumulative account. -/
def cumRowsFor (db : DB) (months_to_sum : List String) (month_key : String) :
    List NewRow :=
  (accounts_cum db).map (cumRow db months_to_sum month_key)

/-- One row of the non-cumulative loop's batch (lines 228-233): balance =
opening balance plus `float(voucher_map.get(acct, 0) or 0)` for this single
month. -/
def noncumRow (db : DB) (month_key acct : String) : NewRow :=
  { account := acct, month_key := month_key,
    balance := ob_map db acct +
      (fetch_voucher_amounts_for_month db month_key (accounts_noncum db) acct).getD 0,
    description := ob_desc_map db acct, account_type := ob_type_map db acct }

/-- The batch built by the non-cumulative loop for one month (lines 225-236):
one row per periodic account. -/
def noncumRowsFor (db : DB) (month_key : String) : List NewRow :=
  (accounts_noncum db).map (noncumRow db month_key)

/-- The cumulative processing loop (lines 174-217) as a state transformer on
the `monthly_balance` map. -/
def runCumulative (db : DB) (st : MBMap) : MBMap :=
  if (accounts_cum db).isEmpty then st
  else MONTHS.enum.foldl
    (fun s p => applyRows s (cumRowsFor db (MONTHS.take (p.1 + 1)) p.2)) st

/-- The non-cumulative processing loop (lines 220-236) as a state transformer. -/
def runNoncum (db : DB) (st : MBMap) : MBMap :=
  if (accounts_noncum db).isEmpty then st
  else MONTHS.foldl (fun s mk => applyRows s (noncumRowsFor db mk)) st

/-- One full run of the script: the cumulative loop, then the non-cumulative
loop, writing only to `monthly_balance`. -/
def runPipeline (db : DB) : DB :=
  { db with monthly_balance := runNoncum db (runCumulative db db.monthly_balance) }

/-- Balance stored at a key, if any. -/
def balanceAt (st : MBMap) (k : String × String) : Option Int :=
  (st k).map (fun m => m.opening_balance)

/-- All rows written by the cumulative loop, in execution order. -/
def cumRowsAll (db : DB) : List NewRow :=
  (MONTHS.enum.map (fun p => cumRowsFor db (MONTHS.take (p.1 + 1)) p.2)).flatten

/-- All rows written by the non-cumulative loop, in execution order. -/
def noncumRowsAll (db : DB) : List NewRow :=
  (MONTHS.map (fun mk => noncumRowsFor db mk)).flatten

/-- All rows one run hands to the writer, in execution order. -/
def pipelineRows (db : DB) : List NewRow :=
  cumRowsAll db ++ noncumRowsAll db

/-- The per-key effect of a batch: the rows touching one key, applied in order. -/
def applyAtChain (v : Option MBStored) (rows : List NewRow) : Option MBStored :=
  rows.foldl (fun w r => some (applyAt w r)) v

/-- Whether a metadata value counts as absent for `NULLIF(x, '')`: NULL or
the empty string. -/
def isEmptyMeta : Option String → Bool
  | none => true
  | some s => s == ("")

/-! ### Error-branch models of the fallible accessors and the writer -/

/-- Outcome of one SQL query against the connection: result data, or a raised
exception. Used to model the error branches of the script's helpers. -/
inductive QueryOutcome (A : Type) where
  | ok (val : A)
  | raised
deriving DecidableEq

/-- `upsert_monthly_rows` (lines 143-165) with its transaction handling: an
empty batch returns 0 before any DB work; otherwise the batch runs inside
START TRANSACTION / COMMIT, and on a raised error the ROLLBACK leaves the
table unchanged and the run exits with status 5. -/
def upsert_monthly_rows_run (st : MBMap) (rows : List NewRow) (raises : Bool) :
    MBMap × Except Nat Nat :=
  if rows.isEmpty then (st, Except.ok 0)
  else if raises then (st, Except.error 5)
  else (applyRows st rows, Except.ok rows.length)

/-- The month-by-month write sequence of the processing loops: each batch is
its own transaction; a failed batch aborts the run (carrying exit code 5)
while the states committed by earlier batches are kept. The result is the
final table state together with the exit code if the run aborted. -/
def runBatches : MBMap → List (List NewRow × Bool) → MBMap × Option Nat
  | st, [] => (st, none)
  | st, b :: rest =>
    match upsert_monthly_rows_run st b.1 b.2 with
    | (st2, Except.ok _) => runBatches st2 rest
    | (st2, Except.error c) => (st2, some c)

/-- The error branch of `fetch_voucher_amounts_for_month` (lines 126-128): a
raised query is logged and the empty dict is returned; the run continues
(the returned value is a plain dict, not an abort). -/
def fetch_voucher_amounts_for_month_run (q : QueryOutcome (String → Option Int)) :
    String → Option Int :=
  match q with
  | QueryOutcome.ok d => d
  | QueryOutcome.raised => fun _ => none

/-- The error branch of `fetch_historical_for_month` (lines 97-99): a raised
query exits the run with status 3. -/
def fetch_historical_for_month_run (q : QueryOutcome (String → Option Int)) :
    Except Nat (String → Option Int) :=
  match q with
  | QueryOutcome.ok d => Except.ok d
  | QueryOutcome.raised => Except.error 3

/-- The inner accumulation `total_vouchers += float(result[0] or 0)` of the
cumulative loop (lines 184-204): the per-month queries run in order with no
try/except around them, so a raised query propagates out of the script and
the interpreter exits with status 1 before any later month is queried. -/
def cumulative_total_run : Int → List (QueryOutcome Int) → Except Nat Int
  | acc, [] => Except.ok acc
  | acc, QueryOutcome.ok v :: rest => cumulative_total_run (acc + v) rest
  | _, QueryOutcome.raised :: _ => Except.error 1

/-! ### Generic lemmas about the upsert machinery -/

/-- Pointwise view of a batch upsert: at key `k` only the rows whose key is
`k` act, in order. -/
theorem applyRows_apply (rows : List NewRow) (st : MBMap) (k : String × String) :
    applyRows st rows k = applyAtChain (st k) (rows.filter (fun r => rkeyEq r k)) := by
  induction rows generalizing st with
  | nil => rfl
  | cons r rs ih =>
    show applyRows (applyUpsert st r) rs k = _
    rw [ih]
    cases h : rkeyEq r k with
    | true => simp [List.filter_cons, h, applyAtChain, applyUpsert]
    | false => simp [List.filter_cons, h, applyAtChain, applyUpsert]

theorem metaUpd_of_filled (s v : Option String) (h : isEmptyMeta s = false) :
    metaUpd s v = s := by
  cases s with
  | none => simp [isEmptyMeta] at h
  | some t =>
    simp [isEmptyMeta] at h
    simp [metaUpd, h]

theorem metaChain_filled (l : List (Option String)) (s : Option String)
    (h : isEmptyMeta s = false) : l.foldl metaUpd s = s := by
  induction l with
  | nil => rfl
  | cons v t ih =>
    show List.foldl metaUpd (metaUpd s v) t = s
    rw [metaUpd_of_filled s v h]
    exact ih

theorem metaChain_cons_empty (l : List (Option String)) (v s : Option String)
    (h : isEmptyMeta s = true) :
    (v :: l).foldl metaUpd s = l.foldl metaUpd v := by
  show List.foldl metaUpd (metaUpd s v) l = _
  cases s with
  | none => rfl
  | some t =>
    simp [isEmptyMeta] at h
    simp [metaUpd, h]

/-- Re-applying the same sequence of metadata updates is a no-op. -/
theorem metaChain_idem (l : List (Option String)) (s : Option String) :
    l.foldl metaUpd (l.foldl metaUpd s) = l.foldl metaUpd s := by
  cases l with
  | nil => rfl
  | cons v t =>
    cases hw : isEmptyMeta ((v :: t).foldl metaUpd s) with
    | false => exact metaChain_filled _ _ hw
    | true =>
      cases hs : isEmptyMeta s with
      | false => rw [metaChain_filled _ _ hs] at hw; rw [hs] at hw; exact absurd hw (by simp)
      | true =>
        rw [metaChain_cons_empty t v _ hw]
        rw [metaChain_cons_empty t v s hs]

/-- Closed form of a nonempty per-key chain: the balance of the last row wins,
and each metadata column evolves by the `metaUpd` chain of the incoming
values. -/
theorem applyAtChain_spec (rows : List NewRow) (v : Option MBStored) (h : rows ≠ []) :
    applyAtChain v rows = some
      { opening_balance := (rows.getLast h).balance,
        description := (rows.map (fun r => r.description)).foldl metaUpd (descOf v),
        account_type := (rows.map (fun r => r.account_type)).foldl metaUpd (typeOf v) } := by
  induction rows generalizing v with
  | nil => exact absurd rfl h
  | cons r rs ih =>
    cases rs with
    | nil => simp [applyAtChain, applyAt, descOf, typeOf]
    | cons r2 rs2 =>
      have h2 : r2 :: rs2 ≠ [] := by simp
      show applyAtChain (some (applyAt v r)) (r2 :: rs2) = _
      rw [ih (some (applyAt v r)) h2]
      simp [applyAt, descOf, typeOf, List.getLast_cons h2]

/-- Re-applying the same per-key row sequence is a no-op. -/
theorem applyAtChain_idem (rows : List NewRow) (v : Option MBStored) :
    applyAtChain (applyAtChain v rows) rows = applyAtChain v rows := by
  cases rows with
  | nil => rfl
  | cons r rs =>
    have h : r :: rs ≠ [] := by simp
    rw [applyAtChain_spec (r :: rs) v h]
    rw [applyAtChain_spec (r :: rs) _ h]
    simp only [descOf, typeOf, metaChain_idem]

/-- Re-applying the same batch of upsert rows is a no-op. -/
theorem applyRows_idem (st : MBMap) (rows : List NewRow) :
    applyRows (applyRows st rows) rows = applyRows st rows := by
  funext k
  rw [applyRows_apply, applyRows_apply]
  exact applyAtChain_idem _ _

theorem applyRows_append (st : MBMap) (a b : List NewRow) :
    applyRows st (a ++ b) = applyRows (applyRows st a) b := by
  simp [applyRows, List.foldl_append]

theorem foldl_applyRows_flatten (bs : List (List NewRow)) (st : MBMap) :
    bs.foldl applyRows st = applyRows st bs.flatten := by
  induction bs generalizing st with
  | nil => rfl
  | cons b bs ih =>
    show bs.foldl applyRows (applyRows st b) = _
    rw [ih, List.flatten_cons, applyRows_append]

/-- A batch containing no row for key `k` leaves the stored row at `k` alone. -/
theorem applyRows_key_absent (rows : List NewRow) (st : MBMap) (k : String × String)
    (h : rows.filter (fun r => rkeyEq r k) = []) : applyRows st rows k = st k := by
  rw [applyRows_apply, h]
  rfl

/-- If every row of a batch touching key `k` carries balance `B` and at least
one does, the stored balance at `k` afterwards is `B`. -/
theorem applyRows_balance_const (rows : List NewRow) (st : MBMap)
    (k : String × String) (B : Int)
    (hne : rows.filter (fun r => rkeyEq r k) ≠ [])
    (hB : ∀ r ∈ rows.filter (fun r => rkeyEq r k), r.balance = B) :
    balanceAt (applyRows st rows) k = some B := by
  rw [balanceAt, applyRows_apply, applyAtChain_spec _ _ hne]
  simpa using hB _ (List.getLast_mem hne)

/-- A non-empty stored description survives any batch of upserts. -/
theorem applyRows_desc_preserved (rows : List NewRow) (st : MBMap)
    (k : String × String) (m : MBStored) (s : String) (hst : st k = some m)
    (hd : m.description = some s) (hs : s ≠ ("")) :
    ((applyRows st rows) k).map MBStored.description = some (some s) := by
  rw [applyRows_apply]
  cases hf : rows.filter (fun r => rkeyEq r k) with
  | nil => simp [applyAtChain, hst, hd]
  | cons a l =>
    rw [applyAtChain_spec _ _ (by simp)]
    have hfill : isEmptyMeta (descOf (st k)) = false := by
      simp [hst, descOf, hd, isEmptyMeta, hs]
    rw [metaChain_filled _ _ hfill]
    simp [hst, descOf, hd]

/-- A non-empty stored account_type survives any batch of upserts. -/
theorem applyRows_type_preserved (rows : List NewRow) (st : MBMap)
    (k : String × String) (m : MBStored) (s : String) (hst : st k = some m)
    (hd : m.account_type = some s) (hs : s ≠ ("")) :
    ((applyRows st rows) k).map MBStored.account_type = some (some s) := by
  rw [applyRows_apply]
  cases hf : rows.filter (fun r => rkeyEq r k) with
  | nil => simp [applyAtChain, hst, hd]
  | cons a l =>
    rw [applyAtChain_spec _ _ (by simp)]
    have hfill : isEmptyMeta (typeOf (st k)) = false := by
      simp [hst, typeOf, hd, isEmptyMeta, hs]
    rw [metaChain_filled _ _ hfill]
    simp [hst, typeOf, hd]

theorem runCumulative_eq (db : DB) (st : MBMap) :
    runCumulative db st = applyRows st (cumRowsAll db) := by
  unfold runCumulative cumRowsAll
  cases h : (accounts_cum db).isEmpty with
  | true =>
    have hnil : accounts_cum db = [] := List.isEmpty_iff.mp h
    simp only [if_pos rfl]
    have : (MONTHS.enum.map (fun p => cumRowsFor db (MONTHS.take (p.1 + 1)) p.2)).flatten
        = [] := by
      rw [List.flatten_eq_nil_iff]
      intro l hl
      obtain ⟨p, hp, hpe⟩ := List.mem_map.mp hl
      simp [cumRowsFor, hnil] at hpe
      exact hpe
    rw [this]
    rfl
  | false =>
    simp only [h, Bool.false_eq_true, if_false]
    rw [← foldl_applyRows_flatten, List.foldl_map]

theorem runNoncum_eq (db : DB) (st : MBMap) :
    runNoncum db st = applyRows st (noncumRowsAll db) := by
  unfold runNoncum noncumRowsAll
  cases h : (accounts_noncum db).isEmpty with
  | true =>
    have hnil : accounts_noncum db = [] := List.isEmpty_iff.mp h
    simp only [if_pos rfl]
    have : (MONTHS.map (fun mk => noncumRowsFor db mk)).flatten = [] := by
      rw [List.flatten_eq_nil_iff]
      intro l hl
      obtain ⟨mk, hmk, hme⟩ := List.mem_map.mp hl
      simp [noncumRowsFor, hnil] at hme
      exact hme
    rw [this]
    rfl
  | false =>
    simp only [h, Bool.false_eq_true, if_false]
    rw [← foldl_applyRows_flatten, List.foldl_map]

theorem runPipeline_monthly (db : DB) :
    (runPipeline db).monthly_balance = applyRows db.monthly_balance (pipelineRows db) := by
  show runNoncum db (runCumulative db db.monthly_balance) = _
  rw [runCumulative_eq, runNoncum_eq, pipelineRows, applyRows_append]

/-! ### Facts about the concrete month window -/

theorem months_getD_inj : ∀ i < 9, ∀ j < 9,
    MONTHS.getD i ("") = MONTHS.getD j ("") → i = j := by decide

theorem months_enum_char : ∀ p ∈ MONTHS.enum, p.1 < 9 ∧ p.2 = MONTHS.getD p.1 ("") := by
  decide

theorem months_enum_mem : ∀ i < 9, (i, MONTHS.getD i ("")) ∈ MONTHS.enum := by decide

/-! ### Small congruence helpers -/

theorem accounts_cum_congr (db1 db2 : DB)
    (h : db1.opening_balance = db2.opening_balance) :
    accounts_cum db1 = accounts_cum db2 := by
  unfold accounts_cum
  rw [h]

theorem accounts_noncum_congr (db1 db2 : DB)
    (h : db1.opening_balance = db2.opening_balance) :
    accounts_noncum db1 = accounts_noncum db2 := by
  unfold accounts_noncum
  rw [h]

theorem ob_map_congr (db1 db2 : DB)
    (h : db1.opening_balance = db2.opening_balance) (a : String) :
    ob_map db1 a = ob_map db2 a := by
  unfold ob_map lastOBRow
  rw [h]

/-- For an account actually in the requested list, the default-0 lookup in the
dict returned by `fetch_voucher_amounts_for_month` equals the plain per-month
voucher sum: accounts dropped by GROUP BY have sum 0 anyway. -/
theorem fetch_getD (db : DB) (mk : String) (accts : List String) (a : String)
    (h : accts.contains a = true) :
    (fetch_voucher_amounts_for_month db mk accts a).getD 0 = voucher_sum db a mk := by
  unfold fetch_voucher_amounts_for_month voucher_sum
  cases he : (month_txns db mk a).isEmpty with
  | true =>
    rw [List.isEmpty_iff.mp he]
    simp [txnSum]
  | false =>
    have ha : a ∈ accts := by simpa using h
    simp [ha, he]

/-! ### The claims -/

/-- C9: running the full pipeline a second time with unchanged input tables
produces a `monthly_balance` state identical to the one after the first run:
every balance is recomputed to the same value, and the metadata update is
idempotent, so no description or account_type changes either. -/
theorem claim_C9_idempotent (db : DB) : runPipeline (runPipeline db) = runPipeline db := by
  have hm : (runPipeline (runPipeline db)).monthly_balance
      = (runPipeline db).monthly_balance := by
    rw [runPipeline_monthly (runPipeline db)]
    have hpr : pipelineRows (runPipeline db) = pipelineRows db := rfl
    rw [hpr, runPipeline_monthly db, applyRows_idem]
  exact DB.ext rfl rfl rfl rfl hm

/-- C10: two runs over states that differ only in the contents of the
`historical_variance` table write identical `monthly_balance` states: the
processing loops compute every month's delta from the voucher tables and the
historical-table reader `fetch_historical_for_month` is never invoked, so the
result does not depend on `historical_variance` at all (the proof is
definitional). -/
theorem claim_C10_historical_independent (db : DB) (h : List HistRow) :
    (runPipeline { db with historical_variance := h }).monthly_balance
      = (runPipeline db).monthly_balance := rfl

/-- C6: on upsert of a row, the balance column is always overwritten with the
incoming value; description and account_type are taken from the incoming row
only when the stored value is NULL or the empty string and are kept otherwise;
on a fresh insert all three incoming values are stored; other keys are
untouched; and a stored non-empty description or account_type survives a whole
later run of the pipeline unchanged. -/
theorem claim_C6_upsert_columns (st : MBMap) (r : NewRow) :
    (balanceAt (applyUpsert st r) (rkey r) = some r.balance)
    ∧ (∀ m s, st (rkey r) = some m → m.description = some s → s ≠ ("") →
        ((applyUpsert st r) (rkey r)).map MBStored.description = some (some s))
    ∧ (∀ m s, st (rkey r) = some m → m.account_type = some s → s ≠ ("") →
        ((applyUpsert st r) (rkey r)).map MBStored.account_type = some (some s))
    ∧ (∀ m, st (rkey r) = some m → isEmptyMeta m.description = true →
        ((applyUpsert st r) (rkey r)).map MBStored.description = some r.description)
    ∧ (∀ m, st (rkey r) = some m → isEmptyMeta m.account_type = true →
        ((applyUpsert st r) (rkey r)).map MBStored.account_type = some r.account_type)
    ∧ (st (rkey r) = none →
        (applyUpsert st r) (rkey r) = some ⟨r.balance, r.description, r.account_type⟩)
    ∧ (∀ k, k ≠ rkey r → (applyUpsert st r) k = st k)
    ∧ (∀ (db : DB) k m s, db.monthly_balance k = some m → m.description = some s →
        s ≠ ("") →
        ((runPipeline db).monthly_balance k).map MBStored.description = some (some s))
    ∧ (∀ (db : DB) k m s, db.monthly_balance k = some m → m.account_type = some s →
        s ≠ ("") →
        ((runPipeline db).monthly_balance k).map MBStored.account_type = some (some s)) := by
  have hkey : rkeyEq r (rkey r) = true := by simp [rkeyEq, rkey]
  refine ⟨?_, ?_, ?_, ?_, ?_, ?_, ?_, ?_, ?_⟩
  · simp [balanceAt, applyUpsert, hkey, applyAt]
  · intro m s hm hd hs
    simp [applyUpsert, hkey, applyAt, descOf, hm, hd, metaUpd, hs]
  · intro m s hm hd hs
    simp [applyUpsert, hkey, applyAt, typeOf, hm, hd, metaUpd, hs]
  · intro m hm he
    have hupd : metaUpd m.description r.description = r.description := by
      cases hd : m.description with
      | none => rfl
      | some t =>
        rw [hd] at he
        simp [isEmptyMeta] at he
        simp [metaUpd, he]
    simp [applyUpsert, hkey, applyAt, descOf, hm, hupd]
  · intro m hm he
    have hupd : metaUpd m.account_type r.account_type = r.account_type := by
      cases hd : m.account_type with
      | none => rfl
      | some t =>
        rw [hd] at he
        simp [isEmptyMeta] at he
        simp [metaUpd, he]
    simp [applyUpsert, hkey, applyAt, typeOf, hm, hupd]
  · intro hm
    simp [applyUpsert, hkey, applyAt, descOf, typeOf, hm, metaUpd]
  · intro k hk
    have : rkeyEq r k = false := by
      cases k with
      | mk k1 k2 =>
        simp [rkeyEq]
        intro h1 h2
        exact hk (by simp [rkey, h1, h2])
    simp [applyUpsert, this]
  · intro db k m s hm hd hs
    rw [runPipeline_monthly]
    exact applyRows_desc_preserved _ _ _ _ _ hm hd hs
  · intro db k m s hm hd hs
    rw [runPipeline_monthly]
    exact applyRows_type_preserved _ _ _ _ _ hm hd hs

/-- C6 witness: a stored row with description "Cash" and empty account_type,
upserted with balance 42, new description and new account_type: the balance is
overwritten, "Cash" is kept, and the empty account_type is filled in. -/
theorem claim_C6_upsert_columns_witness :
    (balanceAt (applyUpsert
        (fun k => if k = ((("1")), (("2025-01"))) then
          some ⟨7, some ("Cash"), some ("")⟩ else none)
        ⟨("1"), ("2025-01"), 42, some ("NewDesc"), some ("NewType")⟩)
      (rkey ⟨("1"), ("2025-01"), 42, some ("NewDesc"), some ("NewType")⟩)
        = some 42)
    ∧ (((applyUpsert
        (fun k => if k = ((("1")), (("2025-01"))) then
          some ⟨7, some ("Cash"), some ("")⟩ else none)
        ⟨("1"), ("2025-01"), 42, some ("NewDesc"), some ("NewType")⟩)
      (rkey ⟨("1"), ("2025-01"), 42, some ("NewDesc"), some ("NewType")⟩)).map
        MBStored.description = some (some ("Cash")))
    ∧ (((applyUpsert
        (fun k => if k = ((("1")), (("2025-01"))) then
          some ⟨7, some ("Cash"), some ("")⟩ else none)
        ⟨("1"), ("2025-01"), 42, some ("NewDesc"), some ("NewType")⟩)
      (rkey ⟨("1"), ("2025-01"), 42, some ("NewDesc"), some ("NewType")⟩)).map
        MBStored.account_type = some (some ("NewType"))) := by
  refine ⟨(claim_C6_upsert_columns _ _).1,
    (claim_C6_upsert_columns _ _).2.1 ⟨7, some ("Cash"), some ("")⟩ ("Cash")
      (by decide) rfl (by decide),
    (claim_C6_upsert_columns _ _).2.2.2.2.1 ⟨7, some ("Cash"), some ("")⟩
      (by decide) rfl⟩

/-- C7: the writer treats each batch as one atomic transaction. An empty
batch returns 0 and is not an error; a failing non-empty batch leaves the
table exactly as it was (no row of the batch persists) and aborts the run
with exit status 5, which is non-zero; a successful batch commits all its
rows and reports the row count; and in the month-by-month write sequence a
failure at one batch keeps everything committed by the earlier batches. -/
theorem claim_C7_atomic_batches :
    (∀ (st : MBMap) (raises : Bool),
        upsert_monthly_rows_run st [] raises = (st, Except.ok 0))
    ∧ (∀ (st : MBMap) (rows : List NewRow), rows ≠ [] →
        upsert_monthly_rows_run st rows true = (st, Except.error 5) ∧ (5 : Nat) ≠ 0)
    ∧ (∀ (st : MBMap) (rows : List NewRow), rows ≠ [] →
        upsert_monthly_rows_run st rows false
          = (applyRows st rows, Except.ok rows.length))
    ∧ (∀ (st : MBMap) (pre : List (List NewRow × Bool)) (b : List NewRow)
        (post : List (List NewRow × Bool)),
        (∀ x ∈ pre, x.2 = false) → b ≠ [] →
        runBatches st (pre ++ (b, true) :: post)
          = (pre.foldl (fun s x => applyRows s x.1) st, some 5)) := by
  refine ⟨?_, ?_, ?_, ?_⟩
  · intro st raises
    simp [upsert_monthly_rows_run]
  · intro st rows h
    cases rows with
    | nil => exact absurd rfl h
    | cons a l => exact ⟨by simp [upsert_monthly_rows_run], by decide⟩
  · intro st rows h
    cases rows with
    | nil => exact absurd rfl h
    | cons a l => simp [upsert_monthly_rows_run]
  · intro st pre b post hpre hb
    induction pre generalizing st with
    | nil =>
      cases b with
      | nil => exact absurd rfl hb
      | cons a l => simp [runBatches, upsert_monthly_rows_run]
    | cons x xs ih =>
      have hx : x.2 = false := hpre x (by simp)
      have hxs : ∀ y ∈ xs, y.2 = false := fun y hy => hpre y (by simp [hy])
      show runBatches st (x :: (xs ++ (b, true) :: post)) = _
      cases hx1 : x.1 with
      | nil =>
        have : upsert_monthly_rows_run st x.1 x.2 = (st, Except.ok 0) := by
          simp [hx1, upsert_monthly_rows_run]
        simp only [runBatches, this]
        rw [ih st hxs]
        simp [hx1, applyRows]
      | cons a l =>
        have : upsert_monthly_rows_run st x.1 x.2
            = (applyRows st x.1, Except.ok x.1.length) := by
          simp [hx1, hx, upsert_monthly_rows_run]
        simp only [runBatches, this]
        rw [ih (applyRows st x.1) hxs]
        rfl

/-- C7 witness: a concrete one-row batch with a raised error is rolled back
with exit status 5. -/
theorem claim_C7_atomic_batches_witness :
    upsert_monthly_rows_run (fun _ => none)
        [⟨("1"), ("2025-01"), 5, none, none⟩] true
      = ((fun _ => none), Except.error 5) ∧ (5 : Nat) ≠ 0 :=
  claim_C7_atomic_batches.2.1 (fun _ => none)
    [⟨("1"), ("2025-01"), 5, none, none⟩] (by decide)

/-- C8: query failures are handled asymmetrically. A raised query inside the
general voucher accessor yields the empty mapping and the run continues; a
raised query against the historical source exits with status 3; a raised
per-month query inside the cumulative accumulation propagates uncaught and
terminates the run with status 1 — both abort codes non-zero — while the
all-success path of that accumulation returns the plain sum. -/
theorem claim_C8_error_asymmetry :
    (fetch_voucher_amounts_for_month_run QueryOutcome.raised = fun _ => none)
    ∧ (fetch_historical_for_month_run QueryOutcome.raised = Except.error 3
        ∧ (3 : Nat) ≠ 0)
    ∧ (∀ (acc : Int) (qs : List (QueryOutcome Int)), QueryOutcome.raised ∈ qs →
        cumulative_total_run acc qs = Except.error 1 ∧ (1 : Nat) ≠ 0)
    ∧ (∀ (acc : Int) (vs : List Int),
        cumulative_total_run acc (vs.map QueryOutcome.ok)
          = Except.ok (acc + vs.sum)) := by
  refine ⟨rfl, ⟨rfl, by decide⟩, ?_, ?_⟩
  · intro acc qs hmem
    refine ⟨?_, by decide⟩
    induction qs generalizing acc with
    | nil => simp at hmem
    | cons q rest ih =>
      cases q with
      | ok v =>
        have : QueryOutcome.raised ∈ rest := by
          rcases List.mem_cons.mp hmem with h | h
          · exact absurd h (by simp)
          · exact h
        exact ih (acc + v) this
      | raised => rfl
  · intro acc vs
    induction vs generalizing acc with
    | nil => simp [cumulative_total_run]
    | cons v rest ih =>
      show cumulative_total_run (acc + v) (rest.map QueryOutcome.ok) = _
      rw [ih (acc + v)]
      simp [List.sum_cons]
      ring_nf

/-- C8 witness: a concrete query list whose second month raises terminates the
cumulative accumulation with status 1. -/
theorem claim_C8_error_asymmetry_witness :
    cumulative_total_run 0 [QueryOutcome.ok 5, QueryOutcome.raised]
      = Except.error 1 ∧ (1 : Nat) ≠ 0 :=
  claim_C8_error_asymmetry.2.2.1 0 [QueryOutcome.ok 5, QueryOutcome.raised]
    (by decide)

/-- C2 counterexample: a cumulative account "A" with opening balance 10, a
historical_variance row for 2025-03 with smoothened (and journal) amount 100,
and a single 5-unit March voucher transaction. The balance the pipeline
writes for 2025-03 is 10 + 5 = 15, i.e. its delta is the voucher sum, not the
smoothed amount 100 the historical-variance table would supply (which would
give 110): for months at or before the last historical month the pipeline
does not read the historical-variance table. -/
theorem claim_C2_counterexample :
    balanceAt ((runPipeline
      { opening_balance := [⟨("A"), some 10, some ("Asset"), none⟩],
        historical_variance := [⟨("A"), ("2025-03"), some 100, some 100⟩],
        vouchers := [⟨("A"), 2025, 3, some 5, ("SALE")⟩],
        vouchers_curr_month := [],
        monthly_balance := fun _ => none }).monthly_balance) (("A"), ("2025-03"))
      = some 15
    ∧ fetch_historical_for_month
      { opening_balance := [⟨("A"), some 10, some ("Asset"), none⟩],
        historical_variance := [⟨("A"), ("2025-03"), some 100, some 100⟩],
        vouchers := [⟨("A"), 2025, 3, some 5, ("SALE")⟩],
        vouchers_curr_month := [],
        monthly_balance := fun _ => none } (("2025-03")) [("A")] true ("A")
      = some 100
    ∧ (15 : Int) ≠ 10 + 100 := by
  refine ⟨by decide, by decide, by decide⟩

/-- C2 as amended: the historical accessor `fetch_historical_for_month`, for
every month key at or before the last historical month 2025-07 and every
requested account, returns the smoothed amount when called for the
cumulative policy and the journal amount when called for the periodic policy
— but the pipeline's processing loops never invoke it, computing every
month's delta from the voucher tables instead (see the C10 theorem). -/
theorem claim_C2_historical_accessor (db : DB) (mk : String) (accts : List String)
    (a : String) (hle : strLe mk ("2025-07") = true)
    (ha : accts.contains a = true) :
    fetch_historical_for_month db mk accts true a
        = (lastHistRow db mk a).map (fun r => r.smoothened_amount.getD 0)
    ∧ fetch_historical_for_month db mk accts false a
        = (lastHistRow db mk a).map (fun r => r.journal_amount.getD 0) := by
  have ham : a ∈ accts := by simpa using ha
  constructor
  · unfold fetch_historical_for_month
    simp only [hle, Bool.true_and, if_true, Bool.and_self, if_pos rfl]
    cases lastHistRow db mk a with
    | none => rfl
    | some r => simp [ham]
  · unfold fetch_historical_for_month
    simp only [hle, Bool.not_false, Bool.false_and, Bool.and_true, if_false]
    cases lastHistRow db mk a with
    | none => simp
    | some r => simp [ham]

/-- C2 witness: concrete evaluation of the amended accessor facts. -/
theorem claim_C2_historical_accessor_witness :
    fetch_historical_for_month
      { opening_balance := [],
        historical_variance := [⟨("B"), ("2025-05"), some 77, some 33⟩],
        vouchers := [], vouchers_curr_month := [],
        monthly_balance := fun _ => none } (("2025-05")) [("B")] true ("B")
      = some 77
    ∧ fetch_historical_for_month
      { opening_balance := [],
        historical_variance := [⟨("B"), ("2025-05"), some 77, some 33⟩],
        vouchers := [], vouchers_curr_month := [],
        monthly_balance := fun _ => none } (("2025-05")) [("B")] false ("B")
      = some 33 := by
  have h := claim_C2_historical_accessor
    { opening_balance := [],
      historical_variance := [⟨("B"), ("2025-05"), some 77, some 33⟩],
      vouchers := [], vouchers_curr_month := [],
      monthly_balance := fun _ => none } (("2025-05")) [("B")] ("B")
    (by decide) (by decide)
  exact ⟨h.1.trans (by decide), h.2.trans (by decide)⟩

/-- C5: a transaction whose voucher tag is one of the three markers (BRTFWD,
ROLCLR, OBTFER) contributes 0 to every per-account monthly sum, whatever its
amount: adding such a transaction to both transaction tables changes no
per-month voucher sum and leaves the entire `monthly_balance` state written by
the pipeline unchanged. -/
theorem claim_C5_marker_excluded (db : DB) (t : Txn)
    (h : MARKERS.contains t.voucher = true) :
    (∀ acct mk, voucher_sum { db with
        vouchers := t :: db.vouchers,
        vouchers_curr_month := t :: db.vouchers_curr_month } acct mk
      = voucher_sum db acct mk)
    ∧ (runPipeline { db with
        vouchers := t :: db.vouchers,
        vouchers_curr_month := t :: db.vouchers_curr_month }).monthly_balance
      = (runPipeline db).monthly_balance := by
  have hvm : t.voucher ∈ MARKERS := by simpa using h
  have hmt : ∀ mk a, month_txns { db with
      vouchers := t :: db.vouchers,
      vouchers_curr_month := t :: db.vouchers_curr_month } mk a
      = month_txns db mk a := by
    intro mk a
    unfold month_txns tableFor
    cases hc : strLe mk ("2025-07") with
    | true => simp [hc, List.filter_cons, hvm]
    | false => simp [hc, List.filter_cons, hvm]
  have hvs : ∀ acct mk, voucher_sum { db with
      vouchers := t :: db.vouchers,
      vouchers_curr_month := t :: db.vouchers_curr_month } acct mk
      = voucher_sum db acct mk := by
    intro acct mk
    unfold voucher_sum
    rw [hmt]
  refine ⟨hvs, ?_⟩
  have hfetch : ∀ mk accts a,
      fetch_voucher_amounts_for_month { db with
        vouchers := t :: db.vouchers,
        vouchers_curr_month := t :: db.vouchers_curr_month } mk accts a
      = fetch_voucher_amounts_for_month db mk accts a := by
    intro mk accts a
    unfold fetch_voucher_amounts_for_month
    rw [hmt]
  have hcum : ∀ ms mk, cumRowsFor { db with
      vouchers := t :: db.vouchers,
      vouchers_curr_month := t :: db.vouchers_curr_month } ms mk
      = cumRowsFor db ms mk := by
    intro ms mk
    unfold cumRowsFor cumRow
    apply List.map_congr_left
    intro a ha2
    have hsum : ms.map (voucher_sum { db with
        vouchers := t :: db.vouchers,
        vouchers_curr_month := t :: db.vouchers_curr_month } a)
        = ms.map (voucher_sum db a) := List.map_congr_left (fun x _ => hvs a x)
    rw [hsum]
    rfl
  have hnon : ∀ mk, noncumRowsFor { db with
      vouchers := t :: db.vouchers,
      vouchers_curr_month := t :: db.vouchers_curr_month } mk
      = noncumRowsFor db mk := by
    intro mk
    unfold noncumRowsFor noncumRow
    apply List.map_congr_left
    intro a ha2
    rw [hfetch]
    rfl
  have hrows : pipelineRows { db with
      vouchers := t :: db.vouchers,
      vouchers_curr_month := t :: db.vouchers_curr_month } = pipelineRows db := by
    unfold pipelineRows cumRowsAll noncumRowsAll
    rw [List.map_congr_left (fun p _ => hcum (MONTHS.take (p.1 + 1)) p.2)]
    rw [List.map_congr_left (fun mk _ => hnon mk)]
  rw [runPipeline_monthly, runPipeline_monthly, hrows]

/-- C5 witness: a BRTFWD transaction of 9999 on account 1000 in 2025-01 leaves
the January voucher sum of that account unchanged. -/
theorem claim_C5_marker_excluded_witness :
    voucher_sum
      { opening_balance := [⟨("1000"), some 1000, some ("Asset"), none⟩],
        historical_variance := [],
        vouchers := ⟨("1000"), 2025, 1, some 9999, ("BRTFWD")⟩ ::
          [⟨("1000"), 2025, 1, some 50, ("SALE")⟩],
        vouchers_curr_month := ⟨("1000"), 2025, 1, some 9999, ("BRTFWD")⟩ :: [],
        monthly_balance := fun _ => none } ("1000") ("2025-01")
    = voucher_sum
      { opening_balance := [⟨("1000"), some 1000, some ("Asset"), none⟩],
        historical_variance := [],
        vouchers := [⟨("1000"), 2025, 1, some 50, ("SALE")⟩],
        vouchers_curr_month := [],
        monthly_balance := fun _ => none } ("1000") ("2025-01") :=
  (claim_C5_marker_excluded
    { opening_balance := [⟨("1000"), some 1000, some ("Asset"), none⟩],
      historical_variance := [],
      vouchers := [⟨("1000"), 2025, 1, some 50, ("SALE")⟩],
      vouchers_curr_month := [],
      monthly_balance := fun _ => none }
    ⟨("1000"), 2025, 1, some 9999, ("BRTFWD")⟩ (by decide)).1 ("1000") ("2025-01")

/-- Every row the pipeline writes belongs to an account of one of the two
policy groups. -/
theorem pipelineRows_account (db : DB) (r : NewRow) (hr : r ∈ pipelineRows db) :
    r.account ∈ accounts_cum db ∨ r.account ∈ accounts_noncum db := by
  unfold pipelineRows cumRowsAll noncumRowsAll at hr
  rcases List.mem_append.mp hr with h | h
  · left
    obtain ⟨b, hb, hrb⟩ := List.mem_flatten.mp h
    obtain ⟨p, hp, rfl⟩ := List.mem_map.mp hb
    unfold cumRowsFor at hrb
    obtain ⟨a, ha, rfl⟩ := List.mem_map.mp hrb
    simpa using ha
  · right
    obtain ⟨b, hb, hrb⟩ := List.mem_flatten.mp h
    obtain ⟨mk, hmk, rfl⟩ := List.mem_map.mp hb
    unfold noncumRowsFor at hrb
    obtain ⟨a, ha, rfl⟩ := List.mem_map.mp hrb
    simpa using ha

/-- C3 counterexample: a single account 9000 whose type label "Asset Income"
matches both keyword sets lands in both policy groups, so it is processed by
both loops, not at most one; and because the periodic loop runs second, the
stored 2025-02 balance is the periodic value 0 (opening 0 plus February's
empty sum), not the cumulative value 50 that the cumulative branch wrote
(opening 0 plus January's 50) — so such an account is not handled by the
cumulative branch alone. -/
theorem claim_C3_counterexample :
    ("9000") ∈ accounts_cum
      { opening_balance := [⟨("9000"), some 0, some ("Asset Income"), none⟩],
        historical_variance := [],
        vouchers := [⟨("9000"), 2025, 1, some 50, ("SALE")⟩],
        vouchers_curr_month := [],
        monthly_balance := fun _ => none }
    ∧ ("9000") ∈ accounts_noncum
      { opening_balance := [⟨("9000"), some 0, some ("Asset Income"), none⟩],
        historical_variance := [],
        vouchers := [⟨("9000"), 2025, 1, some 50, ("SALE")⟩],
        vouchers_curr_month := [],
        monthly_balance := fun _ => none }
    ∧ balanceAt ((runPipeline
      { opening_balance := [⟨("9000"), some 0, some ("Asset Income"), none⟩],
        historical_variance := [],
        vouchers := [⟨("9000"), 2025, 1, some 50, ("SALE")⟩],
        vouchers_curr_month := [],
        monthly_balance := fun _ => none }).monthly_balance)
      (("9000"), ("2025-02")) = some 0
    ∧ balanceAt (runCumulative
      { opening_balance := [⟨("9000"), some 0, some ("Asset Income"), none⟩],
        historical_variance := [],
        vouchers := [⟨("9000"), 2025, 1, some 50, ("SALE")⟩],
        vouchers_curr_month := [],
        monthly_balance := fun _ => none } (fun _ => none))
      (("9000"), ("2025-02")) = some 50 := by
  refine ⟨by decide, by decide, by decide, by decide⟩

/-- C3 as amended: membership in a policy group is exactly a keyword match of
the normalized type label (cumulative: "asset" or "liab"; periodic: "income"
or "expens"); an account matching both keyword sets is processed under both
groups (the counterexample shows the periodic value wins in the stored
table); an account matching neither keyword set is in neither group and a run
leaves every monthly-balance row of that account untouched — silent
exclusion, not an error. -/
theorem claim_C3_classification (db : DB) (a : String) :
    (a ∈ accounts_cum db
      ↔ ∃ r ∈ db.opening_balance, r.account = a ∧ mask_cum r = true)
    ∧ (a ∈ accounts_noncum db
      ↔ ∃ r ∈ db.opening_balance, r.account = a ∧ mask_noncum r = true)
    ∧ (a ∉ accounts_cum db → a ∉ accounts_noncum db →
        ∀ mk, (runPipeline db).monthly_balance (a, mk)
          = db.monthly_balance (a, mk)) := by
  refine ⟨?_, ?_, ?_⟩
  · unfold accounts_cum
    constructor
    · intro h
      obtain ⟨r, hr, rfl⟩ := List.mem_map.mp h
      obtain ⟨hrm, hrmask⟩ := List.mem_filter.mp hr
      exact ⟨r, hrm, rfl, hrmask⟩
    · rintro ⟨r, hrm, rfl, hrmask⟩
      exact List.mem_map.mpr ⟨r, List.mem_filter.mpr ⟨hrm, hrmask⟩, rfl⟩
  · unfold accounts_noncum
    constructor
    · intro h
      obtain ⟨r, hr, rfl⟩ := List.mem_map.mp h
      obtain ⟨hrm, hrmask⟩ := List.mem_filter.mp hr
      exact ⟨r, hrm, rfl, hrmask⟩
    · rintro ⟨r, hrm, rfl, hrmask⟩
      exact List.mem_map.mpr ⟨r, List.mem_filter.mpr ⟨hrm, hrmask⟩, rfl⟩
  · intro h1 h2 mk
    rw [runPipeline_monthly]
    apply applyRows_key_absent
    rw [List.filter_eq_nil_iff]
    intro r hr hkey
    have hacc : r.account = a := by
      simp [rkeyEq] at hkey
      exact hkey.1
    rcases pipelineRows_account db r hr with hc | hn
    · exact h1 (hacc ▸ hc)
    · exact h2 (hacc ▸ hn)

/-- C3 witness: an account with type label "Equity" matches neither keyword
set, and a full run leaves its January row untouched. -/
theorem claim_C3_classification_witness :
    (runPipeline
      { opening_balance := [⟨("Z"), some 1, some ("Equity"), none⟩],
        historical_variance := [], vouchers := [], vouchers_curr_month := [],
        monthly_balance := fun _ => none }).monthly_balance (("Z"), ("2025-01"))
      = ({ opening_balance := [⟨("Z"), some 1, some ("Equity"), none⟩],
           historical_variance := [], vouchers := [], vouchers_curr_month := [],
           monthly_balance := fun _ => none } : DB).monthly_balance
        (("Z"), ("2025-01")) :=
  (claim_C3_classification
    { opening_balance := [⟨("Z"), some 1, some ("Equity"), none⟩],
      historical_variance := [], vouchers := [], vouchers_curr_month := [],
      monthly_balance := fun _ => none } ("Z")).2.2 (by decide) (by decide)
    (("2025-01"))

/-- C4: for a periodic (income/expense) account and any month of the window,
the balance a run stores for that month is the account's opening balance plus
that single month's voucher sum only; consequently any change to transaction
data that leaves that month's filtered transactions unchanged (in particular,
edits to other months) leaves the stored periodic balance unchanged. The
statement is about the final pipeline state: the non-cumulative loop runs
last, so its value is what remains stored. -/
theorem claim_C4_periodic_single_month (db : DB) (mk : String) (acct : String)
    (ha : acct ∈ accounts_noncum db) (hmk : mk ∈ MONTHS) :
    balanceAt ((runPipeline db).monthly_balance) (acct, mk)
      = some (ob_map db acct + voucher_sum db acct mk)
    ∧ ∀ (db2 : DB), db2.opening_balance = db.opening_balance →
        (∀ b, month_txns db2 mk b = month_txns db mk b) →
        balanceAt ((runPipeline db2).monthly_balance) (acct, mk)
          = some (ob_map db acct + voucher_sum db acct mk) := by
  have key : ∀ (d : DB), acct ∈ accounts_noncum d →
      balanceAt ((runPipeline d).monthly_balance) (acct, mk)
        = some (ob_map d acct + voucher_sum d acct mk) := by
    intro d had
    have hcont : (accounts_noncum d).contains acct = true := by simpa using had
    rw [runPipeline_monthly, pipelineRows, applyRows_append]
    apply applyRows_balance_const
    · apply List.ne_nil_of_mem (a := noncumRow d mk acct)
      apply List.mem_filter.mpr
      constructor
      · show noncumRow d mk acct ∈ noncumRowsAll d
        unfold noncumRowsAll
        apply List.mem_flatten.mpr
        refine ⟨noncumRowsFor d mk, List.mem_map_of_mem _ hmk, ?_⟩
        unfold noncumRowsFor
        exact List.mem_map_of_mem _ had
      · simp [noncumRow, rkeyEq]
    · intro r hrf
      obtain ⟨hrmem, hrpred⟩ := List.mem_filter.mp hrf
      unfold noncumRowsAll at hrmem
      obtain ⟨b, hb, hrb⟩ := List.mem_flatten.mp hrmem
      obtain ⟨mk2, hmk2, rfl⟩ := List.mem_map.mp hb
      unfold noncumRowsFor at hrb
      obtain ⟨a2, ha2, rfl⟩ := List.mem_map.mp hrb
      simp only [noncumRow, rkeyEq] at hrpred
      have hparts := (Bool.and_eq_true _ _).mp hrpred
      have haeq : a2 = acct := by simpa using hparts.1
      have hmeq : mk2 = mk := by simpa using hparts.2
      subst haeq
      subst hmeq
      simp [noncumRow, fetch_getD d mk2 (accounts_noncum d) a2 hcont]
  refine ⟨key db ha, ?_⟩
  intro db2 h1 h2
  have ha2 : acct ∈ accounts_noncum db2 := by
    rw [accounts_noncum_congr db2 db h1]
    exact ha
  have hv : voucher_sum db2 acct mk = voucher_sum db acct mk := by
    unfold voucher_sum
    rw [h2]
  rw [key db2 ha2, ob_map_congr db2 db h1, hv]

/-- C4 witness: income account 4000 with opening balance 10; June holds a
single 7-unit transaction and May a 100-unit one; the stored June balance is
10 + 7 = 17, untouched by May's data. -/
theorem claim_C4_periodic_single_month_witness :
    balanceAt ((runPipeline
      { opening_balance := [⟨("4000"), some 10, some ("Income"), none⟩],
        historical_variance := [],
        vouchers := [⟨("4000"), 2025, 6, some 7, ("SALE")⟩,
                     ⟨("4000"), 2025, 5, some 100, ("SALE")⟩],
        vouchers_curr_month := [],
        monthly_balance := fun _ => none }).monthly_balance)
      (("4000"), ("2025-06")) = some 17 :=
  ((claim_C4_periodic_single_month
    { opening_balance := [⟨("4000"), some 10, some ("Income"), none⟩],
      historical_variance := [],
      vouchers := [⟨("4000"), 2025, 6, some 7, ("SALE")⟩,
                   ⟨("4000"), 2025, 5, some 100, ("SALE")⟩],
      vouchers_curr_month := [],
      monthly_balance := fun _ => none } (("2025-06")) (("4000"))
    (by decide) (by decide)).1).trans (by decide)

/-- C1: for every cumulative account and every month index i of the window,
the balance the cumulative loop writes to the monthly-balance table for month
i is the account's opening balance plus the sum, over months 0..i, of that
month's voucher sums (marker vouchers excluded by the summed query). The
pre-state `st` of the table is universally quantified and absent from the
right-hand side: the value is recomputed in full from the window start and
never carried forward from a previously stored monthly balance. (For an
account additionally matching the periodic keyword set, the later periodic
loop overwrites this value — see the C3 theorems.) -/
theorem claim_C1_cumulative_resummation (db : DB) (st : MBMap) (i : Nat)
    (acct : String) (hi : i < MONTHS.length) (ha : acct ∈ accounts_cum db) :
    balanceAt (runCumulative db st) (acct, MONTHS.getD i (""))
      = some (ob_map db acct
          + ((MONTHS.take (i + 1)).map (voucher_sum db acct)).sum) := by
  have hi9 : i < 9 := by simpa [MONTHS] using hi
  rw [runCumulative_eq]
  apply applyRows_balance_const
  · apply List.ne_nil_of_mem
      (a := cumRow db (MONTHS.take (i + 1)) (MONTHS.getD i ("")) acct)
    apply List.mem_filter.mpr
    constructor
    · show cumRow db (MONTHS.take (i + 1)) (MONTHS.getD i ("")) acct
        ∈ cumRowsAll db
      unfold cumRowsAll
      apply List.mem_flatten.mpr
      refine ⟨cumRowsFor db (MONTHS.take (i + 1)) (MONTHS.getD i ("")), ?_, ?_⟩
      · exact List.mem_map_of_mem
          (fun p => cumRowsFor db (MONTHS.take (p.1 + 1)) p.2)
          (months_enum_mem i hi9)
      · unfold cumRowsFor
        exact List.mem_map_of_mem _ ha
    · simp [cumRow, rkeyEq]
  · intro r hrf
    obtain ⟨hrmem, hrpred⟩ := List.mem_filter.mp hrf
    unfold cumRowsAll at hrmem
    obtain ⟨b, hb, hrb⟩ := List.mem_flatten.mp hrmem
    obtain ⟨p, hp, rfl⟩ := List.mem_map.mp hb
    unfold cumRowsFor at hrb
    obtain ⟨a2, ha2, rfl⟩ := List.mem_map.mp hrb
    simp only [cumRow, rkeyEq] at hrpred
    have hparts := (Bool.and_eq_true _ _).mp hrpred
    have haeq : a2 = acct := by simpa using hparts.1
    have hmeq : p.2 = MONTHS.getD i ("") := by simpa using hparts.2
    have hchar := months_enum_char p hp
    have hpi : p.1 = i := months_getD_inj p.1 hchar.1 i hi9 (by rw [← hchar.2, hmeq])
    subst haeq
    simp [cumRow, hpi]

/-- C1 witness: the spec's own scenario. Asset account 1000 with opening
balance 1000; January holds a 50-unit transaction plus a 9999-unit BRTFWD
marker entry, February a -20-unit transaction; the balance written for month
index 1 (February) is 1000 + (50 + -20) = 1030, recomputed from the window
start over an empty initial table. -/
theorem claim_C1_cumulative_resummation_witness :
    balanceAt (runCumulative
      { opening_balance := [⟨("1000"), some 1000, some ("Asset"), none⟩],
        historical_variance := [],
        vouchers := [⟨("1000"), 2025, 1, some 50, ("SALE")⟩,
                     ⟨("1000"), 2025, 1, some 9999, ("BRTFWD")⟩,
                     ⟨("1000"), 2025, 2, some (-20), ("SALE")⟩],
        vouchers_curr_month := [],
        monthly_balance := fun _ => none } (fun _ => none))
      (("1000"), MONTHS.getD 1 ("")) = some 1030 :=
  (claim_C1_cumulative_resummation
    { opening_balance := [⟨("1000"), some 1000, some ("Asset"), none⟩],
      historical_variance := [],
      vouchers := [⟨("1000"), 2025, 1, some 50, ("SALE")⟩,
                   ⟨("1000"), 2025, 1, some 9999, ("BRTFWD")⟩,
                   ⟨("1000"), 2025, 2, some (-20), ("SALE")⟩],
      vouchers_curr_month := [],
      monthly_balance := fun _ => none } (fun _ => none) 1 (("1000"))
    (by decide) (by decide)).trans (by decide)
